import Mathlib

/-
Verification of the change-stream sync service (sync.py / state.py).

The Python source is shallowly embedded: Python dictionaries become
insertion-ordered association lists over String keys, Python runtime
values become the inductive type V with Python truthiness, fallible
disk writes become functions parameterised by an explicit success flag
or failure point, and the single-threaded loops become structural
recursion / folds.
-/

set_option maxHeartbeats 1000000

namespace SyncSvc

/-- A JSON-like runtime value as handled by the Python code.  The
constructor vnone models the Python None object; truthiness mirrors
Python (zero, empty string, empty list, empty dict and None are falsy). -/
inductive V where
  | vnone
  | vbool (b : Bool)
  | vint (n : Int)
  | vstr (s : String)
  | vlist (xs : List V)
  | vdict (xs : List (String × V))

/-- Python truthiness of a value. -/
def truthy : V → Bool
  | .vnone => false
  | .vbool b => b
  | .vint n => n != 0
  | .vstr s => s != ""
  | .vlist xs => !xs.isEmpty
  | .vdict xs => !xs.isEmpty

/-- A value is non-null, i.e. not the Python None object. -/
def nonNull : V → Bool
  | .vnone => false
  | _ => true

/-- Lookup in an insertion-ordered dictionary: none means the key is
absent (Python membership test), some v means the key is present with
value v (which may itself be the null value). -/
def dget {α : Type} (d : List (String × α)) (k : String) : Option α :=
  (d.find? (fun p => p.1 == k)).map Prod.snd

/-- Python dict.get with default None: merges an absent key and a
present-but-null key, exactly as the Python call sites that only test
truthiness do. -/
def pyget (d : List (String × V)) (k : String) : V :=
  (dget d k).getD V.vnone

/-- Python dict item assignment: overwrite in place (keeping the
original position, as CPython dicts do) or append at the end. -/
def dset {α : Type} (d : List (String × α)) (k : String) (v : α) : List (String × α) :=
  match d with
  | [] => [(k, v)]
  | (k1, v1) :: rest => if k1 == k then (k, v) :: rest else (k1, v1) :: dset rest k v

/-- Truthiness of the optional fullDocument argument (None and the
empty dict are both falsy in Python). -/
def fd_truthy : Option (List (String × V)) → Bool
  | none => false
  | some l => !l.isEmpty

/-- The value produced by next(iter(d.values()), None): the first value
in dict iteration (= insertion) order, None on an empty dict. -/
def first_value (d : List (String × V)) : V :=
  (d.head?.map Prod.snd).getD V.vnone

/-- Embedding of sync.py extract_document_id.  Line by line:
doc_id = document_key.get("_id") or document_key.get("");
if not doc_id and full_document: doc_id = full_document.get("_id");
if not doc_id and document_key: doc_id = next(iter(document_key.values()), None).
Note that the Python code chains with `or` and `not`, which test
truthiness, not nullness. -/
def extract_document_id (dk : List (String × V)) (fd : Option (List (String × V))) : V :=
  let a := if truthy (pyget dk "_id") then pyget dk "_id" else pyget dk ""
  let b := if !truthy a && fd_truthy fd then pyget (fd.getD []) "_id" else a
  if !truthy b && !dk.isEmpty then first_value dk else b

/-- The claim C2 as literally worded: return the first non-null of
documentKey._id, documentKey empty-string key, fullDocument._id when
fullDocument is present, then the first value of documentKey in
iteration order; null when none of these applies.  This definition
follows the words of the spec, to be compared with the source
embedding extract_document_id. -/
def extract_document_id_claim (dk : List (String × V)) (fd : Option (List (String × V))) : V :=
  let cands := [pyget dk "_id", pyget dk ""]
    ++ (match fd with | some d => [pyget d "_id"] | none => [])
    ++ (dk.head?.map Prod.snd).toList
  (cands.find? nonNull).getD V.vnone

/-- The behaviour the source actually implements, stated independently
of the control flow of the source: the first Python-truthy candidate
among documentKey._id, documentKey empty-string key and (when
fullDocument is present and non-empty) fullDocument._id; if all are
falsy, the first value of documentKey when documentKey is non-empty,
else fullDocument._id when fullDocument is present and non-empty (even
when that value is falsy), else null. -/
def extract_document_id_amended (dk : List (String × V)) (fd : Option (List (String × V))) : V :=
  let cands := [pyget dk "_id", pyget dk ""]
    ++ (if fd_truthy fd then [pyget (fd.getD []) "_id"] else [])
  match cands.find? truthy with
  | some v => v
  | none =>
    if !dk.isEmpty then first_value dk
    else if fd_truthy fd then pyget (fd.getD []) "_id"
    else V.vnone

/-- The sync_stats counters of state.py. -/
structure Stats where
  total_synced : Nat
  inserts : Nat
  updates : Nat
  deletes : Nat
  errors : Nat
deriving DecidableEq

/-- Embedding of SyncState.record_operation: always bump total_synced,
then bump the per-kind counter selected by the if/elif chain. -/
def record_operation (k : String) (s : Stats) : Stats :=
  let s1 := { s with total_synced := s.total_synced + 1 }
  if k = "insert" then { s1 with inserts := s1.inserts + 1 }
  else if k = "update" ∨ k = "replace" then { s1 with updates := s1.updates + 1 }
  else if k = "delete" then { s1 with deletes := s1.deletes + 1 }
  else if k = "error" then { s1 with errors := s1.errors + 1 }
  else s1

/-- The in-memory JSON document held in SyncState._state (the parts
the claims are about; the sync_stats and last_sync_time fields ride
along so that flushing is modelled on the whole document). -/
structure Snapshot where
  resume_tokens : List (String × V)
  last_sync_time : Option String
  sync_stats : Stats

/-- The state store: the in-memory document, the changes-since-persist
counter, the on-disk file (none = absent) and an instrumentation
counter of completed disk writes. -/
structure SyncSt where
  mem : Snapshot
  changes_since_persist : Nat
  disk : Option Snapshot
  writes : Nat

/-- Embedding of SyncState._save on the in-memory level: the whole
document is written to disk (the file-system level protocol of _save
is modelled separately by save_fs). -/
def save (s : SyncSt) : SyncSt :=
  { s with disk := some s.mem, writes := s.writes + 1 }

/-- Embedding of SyncState.persist: _save then zero the counter. -/
def persist (s : SyncSt) : SyncSt :=
  { save s with changes_since_persist := 0 }

/-- Embedding of SyncState.get_resume_token: dict.get on the token map
(None for an absent key and for a stored null alike). -/
def get_resume_token (s : SyncSt) (c : String) : V :=
  (dget s.mem.resume_tokens c).getD V.vnone

/-- Embedding of SyncState.update_resume_token: set the token, stamp
last_sync_time, bump the counter, and persist when the counter reaches
persist_interval (the Python code zeroes the counter again after the
persist call, which already zeroed it). -/
def update_resume_token (c : String) (now : String) (t : V) (k : Nat) (s : SyncSt) : SyncSt :=
  let m := { s.mem with resume_tokens := dset s.mem.resume_tokens c t,
                        last_sync_time := some now }
  let s1 := { s with mem := m, changes_since_persist := s.changes_since_persist + 1 }
  if k ≤ s1.changes_since_persist then { persist s1 with changes_since_persist := 0 } else s1

/-- Embedding of SyncState.flush_if_pending. -/
def flush_if_pending (s : SyncSt) : SyncSt :=
  if 0 < s.changes_since_persist then persist s else s

/-- The loop body of SyncState.init_collections: insert a null entry
for every collection whose key is absent (presence test, not
truthiness). -/
def init_fold : List (String × V) → List String → List (String × V)
  | d, [] => d
  | d, t :: ts => init_fold (if (dget d t).isSome then d else d ++ [(t, V.vnone)]) ts

/-- Embedding of SyncState.init_collections: extend the token map,
then persist immediately. -/
def init_collections (ts : List String) (s : SyncSt) : SyncSt :=
  persist { s with mem := { s.mem with resume_tokens := init_fold s.mem.resume_tokens ts } }

/-- The on-disk resume token of collection c: none when the file is
absent or has no entry for c. -/
def disk_token (s : SyncSt) (c : String) : Option V :=
  s.disk.bind (fun d => dget d.resume_tokens c)

/-- One call against the state store, as the supervisor makes them for
a single collection: an update with the observed token (and the
timestamp and persist_interval of that call), an explicit persist, or
an idle-time flush_if_pending. -/
inductive SOp where
  | upd (now : String) (t : V) (k : Nat)
  | doPersist
  | doFlush

/-- One step of the state store under an SOp for collection c. -/
def sstep (c : String) : SOp → SyncSt → SyncSt
  | .upd now t k, s => update_resume_token c now t k s
  | .doPersist, s => persist s
  | .doFlush, s => flush_if_pending s

/-- Run a call sequence against the state store. -/
def srun (c : String) (ops : List SOp) (s : SyncSt) : SyncSt :=
  ops.foldl (fun s o => sstep c o s) s

/-- Whether executing the given call from the given state performs a
disk write: persist always does, flush_if_pending iff the counter is
positive, update_resume_token iff the bumped counter reaches the
persist interval. -/
def wrote (op : SOp) (s : SyncSt) : Bool :=
  match op with
  | .upd _ _ k => decide (k ≤ s.changes_since_persist + 1)
  | .doPersist => true
  | .doFlush => decide (0 < s.changes_since_persist)

/-- Accumulator step for the most recently supplied update token. -/
def updTok (acc : Option V) (o : SOp) : Option V :=
  match o with
  | .upd _ t _ => some t
  | _ => acc

/-- The most recently supplied update token of a call sequence. -/
def lastUpd (ops : List SOp) : Option V :=
  ops.foldl updTok none

/-- Fallible embedding of SyncState._save: the ok flag tells whether
the underlying file write succeeds; on failure the exception
propagates (error) and the in-memory state is unchanged. -/
def saveE (ok : Bool) (s : SyncSt) : Except SyncSt SyncSt :=
  if ok then .ok (save s) else .error s

/-- Fallible embedding of SyncState.persist: on _save failure the
exception propagates before the counter is zeroed. -/
def persistE (ok : Bool) (s : SyncSt) : Except SyncSt SyncSt :=
  match saveE ok s with
  | .ok s1 => .ok { s1 with changes_since_persist := 0 }
  | .error s1 => .error s1

/-- Fallible embedding of SyncState.flush_if_pending. -/
def flush_if_pendingE (ok : Bool) (s : SyncSt) : Except SyncSt SyncSt :=
  if 0 < s.changes_since_persist then persistE ok s else .ok s

/-- Fallible embedding of SyncState.update_resume_token. -/
def update_resume_tokenE (c : String) (now : String) (t : V) (k : Nat) (ok : Bool)
    (s : SyncSt) : Except SyncSt SyncSt :=
  let m := { s.mem with resume_tokens := dset s.mem.resume_tokens c t,
                        last_sync_time := some now }
  let s1 := { s with mem := m, changes_since_persist := s.changes_since_persist + 1 }
  if k ≤ s1.changes_since_persist then
    match persistE ok s1 with
    | .ok s2 => .ok { s2 with changes_since_persist := 0 }
    | .error s2 => .error s2
  else .ok s1

/-- Fallible embedding of SyncState.init_collections. -/
def init_collectionsE (ts : List String) (ok : Bool) (s : SyncSt) : Except SyncSt SyncSt :=
  persistE ok { s with mem := { s.mem with resume_tokens := init_fold s.mem.resume_tokens ts } }

/-- A fresh state store, as built by the SyncState constructor before
any load: empty token map, zero stats, no file on disk. -/
def s0ex : SyncSt :=
  { mem := { resume_tokens := [], last_sync_time := none,
             sync_stats := { total_synced := 0, inserts := 0, updates := 0,
                             deletes := 0, errors := 0 } },
    changes_since_persist := 0, disk := none, writes := 0 }

/-- A state with three pending unpersisted changes. -/
def sEx : SyncSt := { s0ex with changes_since_persist := 3 }

/-- The state a successful persist from sEx produces. -/
def pEx : SyncSt := { save sEx with changes_since_persist := 0 }

/-- Outcome of the single target-database call a sync_change dispatch
makes: success, an OperationFailure, or any other exception. -/
inductive Outcome where
  | ok
  | opFailure
  | otherError
deriving DecidableEq

/-- A call issued against the target client. -/
inductive TargetCall where
  | replaceOne (db coll : String) (docId : V) (body : List (String × V))
  | deleteOne (db coll : String) (docId : V)
  | dropCollection (db coll : String)
  | dropDatabase (db : String)

/-- The fields of a change event that sync_change consumes (an absent
ns is the same as one with both fields absent, an absent documentKey
the same as an empty one, matching the dict.get defaults in the
source). -/
structure ChangeEvent where
  operationType : Option String
  nsDb : Option String
  nsColl : Option String
  documentKey : List (String × V)
  fullDocument : Option (List (String × V))

/-- Python falsiness of an optional string (None or empty string). -/
def opt_str_falsy : Option String → Bool
  | none => true
  | some s => s == ""

/-- The observable result of sync_change: the returned boolean, the
record_operation calls made, and the target calls attempted. -/
structure SyncOut where
  ret : Bool
  recorded : List String
  calls : List TargetCall

/-- Outcome handling shared by the per-document branches: on success
record the kind and return true; on OperationFailure record error and
still return true; on any other exception record error and return
false (the outer handler). -/
def apply_write (tc : TargetCall) (kind : String) (o : Outcome) : SyncOut :=
  match o with
  | .ok => ⟨true, [kind], [tc]⟩
  | .opFailure => ⟨true, ["error"], [tc]⟩
  | .otherError => ⟨false, ["error"], [tc]⟩

/-- Whether the operation type is one the dispatch handles. -/
def known_op : Option String → Bool
  | some s => ["insert", "update", "replace", "delete", "drop",
               "dropDatabase", "invalidate"].contains s
  | none => false

/-- Embedding of sync.py sync_change.  The namespace guard runs first
(truthiness of db and coll); then the if/elif chain on operationType.
Insert and update/replace write only when fullDocument is truthy;
delete derives the id from documentKey alone and writes only when the
id is truthy; drop and dropDatabase catch OperationFailure locally
(logged, nothing recorded); invalidate returns false; unknown
operations are ignored.  The Outcome argument resolves the one target
call the taken branch makes and is irrelevant on branches that make no
call. -/
def sync_change (e : ChangeEvent) (o : Outcome) : SyncOut :=
  if opt_str_falsy e.nsDb || opt_str_falsy e.nsColl then ⟨true, [], []⟩
  else
    let db := e.nsDb.getD ""
    let coll := e.nsColl.getD ""
    if e.operationType = some "insert" then
      match e.fullDocument with
      | some fdoc =>
        if !fdoc.isEmpty then
          apply_write (.replaceOne db coll (extract_document_id e.documentKey (some fdoc))
            (fdoc.filter (fun p => p.1 != "_id"))) "insert" o
        else ⟨true, [], []⟩
      | none => ⟨true, [], []⟩
    else if e.operationType = some "update" ∨ e.operationType = some "replace" then
      match e.fullDocument with
      | some fdoc =>
        if !fdoc.isEmpty then
          apply_write (.replaceOne db coll (extract_document_id e.documentKey (some fdoc))
            (fdoc.filter (fun p => p.1 != "_id"))) "update" o
        else ⟨true, [], []⟩
      | none => ⟨true, [], []⟩
    else if e.operationType = some "delete" then
      let docId := if !e.documentKey.isEmpty then extract_document_id e.documentKey none
                   else V.vnone
      if truthy docId then apply_write (.deleteOne db coll docId) "delete" o
      else ⟨true, [], []⟩
    else if e.operationType = some "drop" then
      match o with
      | .otherError => ⟨false, ["error"], [.dropCollection db coll]⟩
      | _ => ⟨true, [], [.dropCollection db coll]⟩
    else if e.operationType = some "dropDatabase" then
      match o with
      | .otherError => ⟨false, ["error"], [.dropDatabase db]⟩
      | _ => ⟨true, [], [.dropDatabase db]⟩
    else if e.operationType = some "invalidate" then ⟨false, [], []⟩
    else ⟨true, [], []⟩

/-- A concrete insert event used by the C3 witness. -/
def e3ex : ChangeEvent :=
  { operationType := some "insert", nsDb := some "d", nsColl := some "c",
    documentKey := [("_id", V.vstr "A")],
    fullDocument := some [("_id", V.vstr "A"), ("v", V.vint 1)] }

/-- The file-system state _save touches: the parent directory of the
state file, the final state file (by content) and the temp file. -/
structure FsState where
  dirExists : Bool
  finalFile : Option String
  tempFile : Option String
deriving DecidableEq

/-- The file-system operations _save can issue.  The vocabulary
includes an fsync of the temp file handle, so that its absence from
every trace is expressible. -/
inductive FsOp where
  | mkdirParents
  | mkstempInParent
  | writeTemp (content : String)
  | fsyncTemp
  | renameTempToFinal
  | unlinkTemp
deriving DecidableEq

/-- Failure point of one _save run: none, during json.dump (with the
prefix w of the serialisation reaching the temp file), or during
os.replace. -/
inductive SaveFail where
  | noFail
  | atWrite (w : String)
  | atRename
deriving DecidableEq

/-- Embedding of SyncState._save: mkdir with parents on the state-file
parent, mkstemp in that same parent directory (the OS guarantees a
fresh unique name), json.dump of the full serialised state into the
temp handle, os.replace of the temp path onto the final path; on any
exception unlink the temp file and re-raise.  Returns the resulting
file-system state, whether an exception propagated, and the trace of
issued operations. -/
def save_fs (fs : FsState) (content : String) (f : SaveFail) : FsState × Bool × List FsOp :=
  match f with
  | .noFail =>
    ({ dirExists := true, finalFile := some content, tempFile := none }, false,
     [.mkdirParents, .mkstempInParent, .writeTemp content, .renameTempToFinal])
  | .atWrite w =>
    ({ dirExists := true, finalFile := fs.finalFile, tempFile := none }, true,
     [.mkdirParents, .mkstempInParent, .writeTemp w, .unlinkTemp])
  | .atRename =>
    ({ dirExists := true, finalFile := fs.finalFile, tempFile := none }, true,
     [.mkdirParents, .mkstempInParent, .writeTemp content, .unlinkTemp])

/-- Behaviour of one underlying cursor at one try_next probe: yields
an event, yields nothing, or raises. -/
inductive Probe (α : Type) where
  | event (e : α)
  | noEvent
  | raises

/-- Whether the probe yielded an event (a raising probe did not). -/
def Probe.isEvt {α : Type} : Probe α → Bool
  | .event _ => true
  | _ => false

/-- The yielded event, if any. -/
def Probe.evt? {α : Type} : Probe α → Option α
  | .event e => some e
  | _ => none

/-- The MultiCollectionChangeStream state at one try_next call: the
cursors (by their behaviour at this call), their collection names, and
the round-robin index. -/
structure MCS (α : Type) where
  streams : List (Probe α)
  names : List String
  idx : Nat

/-- The loop body of MultiCollectionChangeStream.try_next: probe up to
fuel cursors starting at index i, advancing the index modulo the
cursor count after every probe; a probe that raises is treated exactly
like one that yields nothing.  Also returns the list of probed
indices. -/
def try_next_aux {α : Type} (ss : List (Probe α)) (ns : List String) :
    Nat → Nat → (Option String × Option α) × Nat × List Nat
  | 0, i => ((none, none), i, [])
  | fuel + 1, i =>
    let i2 := (i + 1) % ss.length
    let p := ss.getD i .noEvent
    if p.isEvt then ((some (ns.getD i ""), p.evt?), i2, [i])
    else
      let r := try_next_aux ss ns fuel i2
      (r.1, r.2.1, i :: r.2.2)

/-- Embedding of MultiCollectionChangeStream.try_next: an empty stream
list short-circuits to (None, None), otherwise one full sweep of at
most one probe per cursor. -/
def try_next {α : Type} (m : MCS α) : (Option String × Option α) × Nat × List Nat :=
  if m.streams.isEmpty then ((none, none), m.idx, [])
  else try_next_aux m.streams m.names m.streams.length m.idx

/-- The round-robin probe order: k indices starting at i, modulo n. -/
def rot_seg (n k i : Nat) : List Nat :=
  (List.range k).map (fun j => (i + j) % n)

/-- The first index in probe order whose cursor yields an event. -/
def first_evt {α : Type} (ss : List (Probe α)) (l : List Nat) : Option Nat :=
  l.find? (fun j => (ss.getD j .noEvent).isEvt)

/-- Embedding of SingleCollectionChangeStream.try_next: yield the
tagged event; map no-event and a raising cursor both to (None, None). -/
def single_try_next {α : Type} (name : String) (p : Probe α) : Option String × Option α :=
  match p with
  | .event e => (some name, some e)
  | _ => (none, none)

/-- A sequence of SingleCollectionChangeStream.try_next calls, the
cursor behaving as listed, one probe per call. -/
def run_single {α : Type} (name : String) (ps : List (Probe α)) :
    List (Option String × Option α) :=
  ps.map (single_try_next name)

/-- The same call sequence against MultiCollectionChangeStream holding
that one cursor, threading the round-robin index between calls. -/
def run_multi {α : Type} (name : String) : Nat → List (Probe α) → List (Option String × Option α)
  | _, [] => []
  | i, p :: ps =>
    let r := try_next (⟨[p], [name], i⟩ : MCS α)
    r.1 :: run_multi name r.2.1 ps

/-- An underlying cursor as seen by close: whether its close call
raises, and whether it has been closed. -/
structure Cursor where
  closeRaises : Bool
  closed : Bool
deriving DecidableEq

/-- The underlying cursor close call, which may raise. -/
def raw_close (c : Cursor) : Except Unit Cursor :=
  if c.closeRaises then .error () else .ok { c with closed := true }

/-- Embedding of SingleCollectionChangeStream.close: close the cursor,
swallowing any error. -/
def single_close (c : Cursor) : Cursor :=
  match raw_close c with
  | .ok c2 => c2
  | .error _ => c

/-- Embedding of MultiCollectionChangeStream.close: close every
cursor, swallowing per-cursor errors. -/
def multi_close (cs : List Cursor) : List Cursor :=
  cs.map (fun c => match raw_close c with | .ok c2 => c2 | .error _ => c)

/-- Cursor behaviours for the C7 witness. -/
def ssEx : List (Probe Nat) := [Probe.noEvent, Probe.event 42, Probe.raises]

/-- Embedding of the per-collection option building inside
open_change_stream: coll_options = dict(base_options) (a fresh copy,
so base_options itself is never mutated); then, if the stored resume
token is truthy, inject it under the key resume_after. -/
def build_coll_options (base : List (String × V)) (st : SyncSt) (target : String) :
    List (String × V) :=
  let resume_token := get_resume_token st target
  if truthy resume_token then dset base "resume_after" resume_token else base

/-- A state store holding a non-null but falsy (empty dict) resume
token for target a.x, used by the C8 counterexample. -/
def st8 : SyncSt :=
  { s0ex with mem := { s0ex.mem with resume_tokens := [("a.x", V.vdict [])] } }

/-- A state store holding a truthy resume token for target a.x, used
by the C8 witness. -/
def st8b : SyncSt :=
  { s0ex with mem := { s0ex.mem with
      resume_tokens := [("a.x", V.vdict [("_data", V.vstr "ab")])] } }

end SyncSvc

namespace SyncSvc

theorem dget_dset_self {α : Type} (d : List (String × α)) (k : String) (v : α) :
    dget (dset d k v) k = some v := by
  induction d with
  | nil => simp [dset, dget, List.find?]
  | cons p rest ih =>
    obtain ⟨k1, v1⟩ := p
    by_cases h : (k1 == k) = true
    · simp [dset, h, dget, List.find?]
    · simpa [dset, h, dget, List.find?] using ih

theorem dget_dset_ne {α : Type} (d : List (String × α)) (k k2 : String) (v : α) (h : k2 ≠ k) :
    dget (dset d k v) k2 = dget d k2 := by
  have hkk : (k == k2) = false := beq_false_of_ne (Ne.symm h)
  induction d with
  | nil => simp [dset, dget, List.find?, hkk]
  | cons p rest ih =>
    obtain ⟨k1, v1⟩ := p
    by_cases h1 : (k1 == k) = true
    · have hk : k1 = k := by simpa [beq_iff_eq] using h1
      simp [dset, h1, dget, List.find?, hkk, hk]
    · by_cases h2 : (k1 == k2) = true
      · simp [dset, h1, dget, List.find?, h2]
      · simpa [dset, h1, dget, List.find?, h2] using ih

theorem dget_append {α : Type} (d1 d2 : List (String × α)) (k : String) :
    dget (d1 ++ d2) k = ((dget d1 k).orElse (fun _ => dget d2 k)) := by
  induction d1 with
  | nil => simp [dget]
  | cons p rest ih =>
    by_cases h : (p.1 == k) = true
    · simp [dget, List.find?, h]
    · simpa [dget, List.find?, h] using ih

theorem dget_init_fold (ts : List String) : ∀ (d : List (String × V)) (k : String),
    dget (init_fold d ts) k =
      match dget d k with
      | some v => some v
      | none => if k ∈ ts then some V.vnone else none := by
  induction ts with
  | nil => intro d k; cases h : dget d k <;> simp [init_fold, h]
  | cons t ts ih =>
    intro d k
    show dget (init_fold (if (dget d t).isSome then d else d ++ [(t, V.vnone)]) ts) k = _
    by_cases hdt : (dget d t).isSome
    · rw [if_pos hdt, ih]
      cases hk : dget d k with
      | some v => simp
      | none =>
        have hne : k ≠ t := by
          intro he; rw [he] at hk; rw [hk] at hdt; simp at hdt
        simp [List.mem_cons, hne]
    · rw [if_neg hdt, ih]
      rw [dget_append]
      cases hk : dget d k with
      | some v => simp
      | none =>
        by_cases he : k = t
        · subst he
          simp [dget, List.find?]
        · have htk : (t == k) = false := beq_false_of_ne (Ne.symm he)
          simp [dget, List.find?, htk, List.mem_cons, he]

theorem init_fold_id (ts : List String) : ∀ d : List (String × V),
    (∀ t ∈ ts, (dget d t).isSome) → init_fold d ts = d := by
  induction ts with
  | nil => intro d _; rfl
  | cons t ts ih =>
    intro d h
    have ht := h t (by simp)
    show init_fold (if (dget d t).isSome then d else d ++ [(t, V.vnone)]) ts = d
    rw [if_pos ht]
    exact ih d (fun t2 h2 => h t2 (by simp [h2]))

theorem flush_mem (s : SyncSt) : (flush_if_pending s).mem = s.mem := by
  unfold flush_if_pending; split <;> rfl

theorem update_mem_tokens (c now : String) (t : V) (k : Nat) (s : SyncSt) :
    (update_resume_token c now t k s).mem.resume_tokens = dset s.mem.resume_tokens c t := by
  simp only [update_resume_token]
  split <;> rfl

theorem foldl_updTok (ops : List SOp) : ∀ a : Option V,
    ops.foldl updTok a =
      match ops.foldl updTok none with
      | some t => some t
      | none => a := by
  induction ops with
  | nil => intro a; rfl
  | cons o ops ih =>
    intro a
    show ops.foldl updTok (updTok a o) =
      match ops.foldl updTok (updTok none o) with
      | some t => some t
      | none => a
    rw [ih (updTok a o), ih (updTok none o)]
    cases h : ops.foldl updTok none <;> cases o <;> rfl

theorem srun_mem_token (c : String) (ops : List SOp) : ∀ s0 : SyncSt,
    dget (srun c ops s0).mem.resume_tokens c =
      match lastUpd ops with
      | some t => some t
      | none => dget s0.mem.resume_tokens c := by
  induction ops with
  | nil => intro s0; rfl
  | cons o ops ih =>
    intro s0
    show dget (srun c ops (sstep c o s0)).mem.resume_tokens c = _
    rw [ih (sstep c o s0)]
    have h2 : lastUpd (o :: ops) =
        match lastUpd ops with
        | some t => some t
        | none => updTok none o := by
      simp only [lastUpd, List.foldl_cons]
      rw [foldl_updTok ops (updTok none o)]
    rw [h2]
    cases h : lastUpd ops with
    | some t => rfl
    | none =>
      cases o with
      | upd now t k =>
        show dget (update_resume_token c now t k s0).mem.resume_tokens c =
          match updTok none (SOp.upd now t k) with
          | some t => some t
          | none => dget s0.mem.resume_tokens c
        rw [update_mem_tokens, dget_dset_self]
        rfl
      | doPersist => rfl
      | doFlush =>
        show dget (flush_if_pending s0).mem.resume_tokens c = _
        rw [flush_mem]
        rfl

theorem sstep_wrote_disk (c : String) (op : SOp) (s : SyncSt) (h : wrote op s = true) :
    (sstep c op s).disk = some (sstep c op s).mem := by
  cases op with
  | doPersist => rfl
  | doFlush =>
    have hp : 0 < s.changes_since_persist := by simpa [wrote] using h
    simp [sstep, flush_if_pending, hp, persist, save]
  | upd now t k =>
    have hk : k ≤ s.changes_since_persist + 1 := by simpa [wrote] using h
    simp [sstep, update_resume_token, hk, persist, save]

theorem flush_id_of_zero (s : SyncSt) (h : s.changes_since_persist = 0) :
    flush_if_pending s = s := by
  simp [flush_if_pending, h]

/-- C2 counterexample: with documentKey mapping the key _id to the
integer 0 (non-null but Python-falsy) and fullDocument mapping _id to
5, the claim predicts the first non-null candidate 0, but the code
returns 5 because the Python `or` chain tests truthiness. -/
theorem C2_counterexample :
    extract_document_id [("_id", V.vint 0)] (some [("_id", V.vint 5)]) = V.vint 5 ∧
    extract_document_id_claim [("_id", V.vint 0)] (some [("_id", V.vint 5)]) = V.vint 0 ∧
    V.vint 5 ≠ V.vint 0 := by
  refine ⟨rfl, rfl, ?_⟩
  intro h
  injection h with h2
  exact absurd h2 (by decide)

/-- C2 amended: extract_document_id returns the first Python-truthy of
documentKey._id, documentKey empty-string key and (when fullDocument
is present and non-empty) fullDocument._id; when all are falsy it
falls back to the first value of documentKey when non-empty, else to
fullDocument._id when fullDocument is present and non-empty, else
null. -/
theorem C2_extract_document_id_spec (dk : List (String × V)) (fd : Option (List (String × V))) :
    extract_document_id dk fd = extract_document_id_amended dk fd := by
  unfold extract_document_id extract_document_id_amended
  by_cases t1 : truthy (pyget dk "_id") <;>
  by_cases t2 : truthy (pyget dk "") <;>
  cases hf : fd_truthy fd <;>
  by_cases t3 : truthy (pyget (fd.getD []) "_id") <;>
  cases he : dk.isEmpty <;>
  try simp [List.find?, t1, t2, t3, he, hf]
  all_goals rcases dk with _ | ⟨p, rest⟩ <;> simp_all [pyget, dget, List.find?]

/-- C1: for any sequence of state-store calls for collection c, if the
final call performs a disk write (update_resume_token reaching the
persist interval, flush_if_pending with a positive counter, or an
explicit persist) and at least one update occurred, then the on-disk
resume token for c equals the most recently supplied update token (in
particular one of the tokens observed so far, never an earlier one),
and get_resume_token returns that same token in memory. -/
theorem C1_token_monotonic (c : String) (s0 : SyncSt) (ops : List SOp) (op : SOp) (t : V)
    (hlast : lastUpd (ops ++ [op]) = some t)
    (hw : wrote op (srun c ops s0) = true) :
    get_resume_token (srun c (ops ++ [op]) s0) c = t ∧
    disk_token (srun c (ops ++ [op]) s0) c = some t := by
  have hrun : srun c (ops ++ [op]) s0 = sstep c op (srun c ops s0) := by
    simp [srun]
  have hmem : dget (srun c (ops ++ [op]) s0).mem.resume_tokens c = some t := by
    rw [srun_mem_token c (ops ++ [op]) s0, hlast]
  have hdisk : (sstep c op (srun c ops s0)).disk = some (sstep c op (srun c ops s0)).mem :=
    sstep_wrote_disk c op (srun c ops s0) hw
  constructor
  · unfold get_resume_token
    rw [hmem]
    rfl
  · unfold disk_token
    rw [hrun] at hmem ⊢
    rw [hdisk]
    simpa using hmem

/-- C1 witness: a single update with token T1 under interval 10,
followed by an idle flush; the flushed file and the in-memory view
both hold T1. -/
theorem C1_witness :
    lastUpd ([SOp.upd "ts1" (V.vstr "T1") 10] ++ [SOp.doFlush]) = some (V.vstr "T1") ∧
    wrote SOp.doFlush (srun "db.c" [SOp.upd "ts1" (V.vstr "T1") 10] s0ex) = true ∧
    (get_resume_token (srun "db.c" ([SOp.upd "ts1" (V.vstr "T1") 10] ++ [SOp.doFlush]) s0ex)
        "db.c" = V.vstr "T1" ∧
      disk_token (srun "db.c" ([SOp.upd "ts1" (V.vstr "T1") 10] ++ [SOp.doFlush]) s0ex)
        "db.c" = some (V.vstr "T1")) :=
  ⟨rfl, rfl, C1_token_monotonic "db.c" s0ex [SOp.upd "ts1" (V.vstr "T1") 10] SOp.doFlush
    (V.vstr "T1") rfl rfl⟩

/-- C6: init_collections gives every target an entry (null when the
key was absent, the stored token otherwise), flushes the state to
disk, and a second identical call changes neither the in-memory
document nor the on-disk file nor the counter. -/
theorem C6_init_collections_spec (ts : List String) (s : SyncSt) :
    (∀ t ∈ ts, dget (init_collections ts s).mem.resume_tokens t =
        some ((dget s.mem.resume_tokens t).getD V.vnone)) ∧
    (∀ t v, dget s.mem.resume_tokens t = some v →
        dget (init_collections ts s).mem.resume_tokens t = some v) ∧
    (init_collections ts s).disk = some (init_collections ts s).mem ∧
    (init_collections ts (init_collections ts s)).mem = (init_collections ts s).mem ∧
    (init_collections ts (init_collections ts s)).disk = (init_collections ts s).disk ∧
    (init_collections ts (init_collections ts s)).changes_since_persist =
      (init_collections ts s).changes_since_persist := by
  have htoks : (init_collections ts s).mem.resume_tokens = init_fold s.mem.resume_tokens ts :=
    rfl
  have hall : ∀ t ∈ ts, (dget (init_collections ts s).mem.resume_tokens t).isSome := by
    intro t ht
    rw [htoks, dget_init_fold]
    cases hk : dget s.mem.resume_tokens t <;> simp [ht]
  have hid : init_fold (init_collections ts s).mem.resume_tokens ts =
      (init_collections ts s).mem.resume_tokens :=
    init_fold_id ts _ hall
  refine ⟨?_, ?_, rfl, ?_, ?_, rfl⟩
  · intro t ht
    rw [htoks, dget_init_fold]
    cases hk : dget s.mem.resume_tokens t <;> simp [ht]
  · intro t v hv
    rw [htoks, dget_init_fold, hv]
  · show ({ (init_collections ts s).mem with
        resume_tokens := init_fold (init_collections ts s).mem.resume_tokens ts } : Snapshot)
      = (init_collections ts s).mem
    rw [hid]
  · show some ({ (init_collections ts s).mem with
        resume_tokens := init_fold (init_collections ts s).mem.resume_tokens ts } : Snapshot)
      = (init_collections ts s).disk
    rw [hid]
    rfl

/-- C6 witness: initialising the fresh store with two targets puts a
null entry for the first one in memory and flushes to disk. -/
theorem C6_witness :
    "a.x" ∈ ["a.x", "b.y"] ∧
    dget (init_collections ["a.x", "b.y"] s0ex).mem.resume_tokens "a.x" =
      some ((dget s0ex.mem.resume_tokens "a.x").getD V.vnone) ∧
    (init_collections ["a.x", "b.y"] s0ex).disk =
      some (init_collections ["a.x", "b.y"] s0ex).mem :=
  ⟨by decide,
   (C6_init_collections_spec ["a.x", "b.y"] s0ex).1 "a.x" (by decide),
   (C6_init_collections_spec ["a.x", "b.y"] s0ex).2.2.1⟩

/-- C10: whenever a persist returns normally, directly or from
init_collections, from update_resume_token on reaching the persist
threshold, or from flush_if_pending, the changes-since-persist counter
is zero, and an immediately following flush_if_pending is a no-op
(returns the state unchanged, hence performs no disk write). -/
theorem C10_persist_zeroes_counter (ok : Bool) (s s2 : SyncSt) (ts : List String)
    (c now : String) (t : V) (k : Nat) :
    (persistE ok s = .ok s2 →
      s2.changes_since_persist = 0 ∧ flush_if_pending s2 = s2) ∧
    (init_collectionsE ts ok s = .ok s2 →
      s2.changes_since_persist = 0 ∧ flush_if_pending s2 = s2) ∧
    (update_resume_tokenE c now t k ok s = .ok s2 → k ≤ s.changes_since_persist + 1 →
      s2.changes_since_persist = 0 ∧ flush_if_pending s2 = s2) ∧
    (flush_if_pendingE ok s = .ok s2 →
      s2.changes_since_persist = 0 ∧ flush_if_pending s2 = s2) := by
  have hpersist : ∀ s3 : SyncSt, persistE ok s3 = .ok s2 →
      s2.changes_since_persist = 0 ∧ flush_if_pending s2 = s2 := by
    intro s3 h
    cases ok with
    | false => simp [persistE, saveE] at h
    | true =>
      simp only [persistE, saveE, if_pos] at h
      cases h
      exact ⟨rfl, flush_id_of_zero _ rfl⟩
  refine ⟨hpersist s, hpersist _, ?_, ?_⟩
  · intro h hk
    simp only [update_resume_tokenE] at h
    rw [if_pos hk] at h
    cases hok : ok with
    | false => rw [hok] at h; simp [persistE, saveE] at h
    | true =>
      rw [hok] at h
      simp only [persistE, saveE, if_pos] at h
      cases h
      exact ⟨rfl, flush_id_of_zero _ rfl⟩
  · intro h
    simp only [flush_if_pendingE] at h
    by_cases hc : 0 < s.changes_since_persist
    · rw [if_pos hc] at h
      exact hpersist s h
    · rw [if_neg hc] at h
      cases h
      exact ⟨by omega, flush_id_of_zero _ (by omega)⟩

/-- C10 witness: a direct persist from a state with three pending
changes returns normally with the counter zeroed, and a following
flush_if_pending is the identity. -/
theorem C10_witness :
    persistE true sEx = .ok pEx ∧
    (pEx.changes_since_persist = 0 ∧ flush_if_pending pEx = pEx) :=
  ⟨rfl, (C10_persist_zeroes_counter true sEx pEx [] "c" "now" V.vnone 0).1 rfl⟩

/-- C4: every record_operation call increments total_synced by one;
insert bumps inserts, update and replace bump updates, delete bumps
deletes, error bumps errors, any other kind bumps no per-kind counter;
no counter ever decreases. -/
theorem C4_record_operation_spec (k : String) (s : Stats) :
    (record_operation k s).total_synced = s.total_synced + 1 ∧
    (record_operation k s).inserts = (if k = "insert" then s.inserts + 1 else s.inserts) ∧
    (record_operation k s).updates =
      (if k = "update" ∨ k = "replace" then s.updates + 1 else s.updates) ∧
    (record_operation k s).deletes = (if k = "delete" then s.deletes + 1 else s.deletes) ∧
    (record_operation k s).errors = (if k = "error" then s.errors + 1 else s.errors) ∧
    s.total_synced ≤ (record_operation k s).total_synced ∧
    s.inserts ≤ (record_operation k s).inserts ∧
    s.updates ≤ (record_operation k s).updates ∧
    s.deletes ≤ (record_operation k s).deletes ∧
    s.errors ≤ (record_operation k s).errors := by
  unfold record_operation
  split_ifs <;> simp_all

/-- C3: sync_change returns false only on invalidate or when the one
target call of the taken branch raises a non-OperationFailure
exception; an OperationFailure on a per-document branch records error
and still returns true; malformed namespaces, unknown operation
types, and insert/update/replace without fullDocument all return true
without any target call. -/
theorem C3_sync_change_spec (e : ChangeEvent) (o : Outcome) :
    ((sync_change e o).ret = false →
      e.operationType = some "invalidate" ∨
        (o = Outcome.otherError ∧ (sync_change e o).calls ≠ [])) ∧
    ((opt_str_falsy e.nsDb || opt_str_falsy e.nsColl) = true →
      (sync_change e o).ret = true ∧ (sync_change e o).calls = []) ∧
    (known_op e.operationType = false →
      (sync_change e o).ret = true ∧ (sync_change e o).calls = []) ∧
    ((e.operationType = some "insert" ∨ e.operationType = some "update" ∨
        e.operationType = some "replace") → e.fullDocument = none →
      (sync_change e o).ret = true ∧ (sync_change e o).calls = []) ∧
    ((e.operationType = some "insert" ∨ e.operationType = some "update" ∨
        e.operationType = some "replace" ∨ e.operationType = some "delete") →
      (sync_change e o).calls ≠ [] → o = Outcome.opFailure →
      (sync_change e o).recorded = ["error"] ∧ (sync_change e o).ret = true) := by
  by_cases hns : (opt_str_falsy e.nsDb || opt_str_falsy e.nsColl) = true
  · simp [sync_change, hns]
  · by_cases h1 : e.operationType = some "insert"
    · cases hfd : e.fullDocument with
      | none => simp [sync_change, hns, h1, hfd, known_op]
      | some fdoc =>
        cases hemp : fdoc.isEmpty <;>
          cases o <;>
            simp [sync_change, hns, h1, hfd, hemp, apply_write, known_op]
    · by_cases h2 : e.operationType = some "update" ∨ e.operationType = some "replace"
      · cases hfd : e.fullDocument with
        | none =>
          rcases h2 with h2 | h2 <;> simp [sync_change, hns, h1, h2, hfd, known_op]
        | some fdoc =>
          rcases h2 with h2 | h2 <;>
            cases hemp : fdoc.isEmpty <;>
              cases o <;>
                simp [sync_change, hns, h1, h2, hfd, hemp, apply_write, known_op]
      · by_cases h3 : e.operationType = some "delete"
        · cases hdk : e.documentKey.isEmpty with
          | true => simp [sync_change, hns, h1, h2, h3, hdk, known_op, truthy]
          | false =>
            cases ht : truthy (extract_document_id e.documentKey none) <;>
              cases o <;>
                simp [sync_change, hns, h1, h2, h3, hdk, ht, apply_write, known_op]
        · by_cases h4 : e.operationType = some "drop"
          · cases o <;> simp [sync_change, hns, h1, h2, h3, h4, known_op]
          · by_cases h5 : e.operationType = some "dropDatabase"
            · cases o <;> simp [sync_change, hns, h1, h2, h3, h4, h5, known_op]
            · by_cases h6 : e.operationType = some "invalidate"
              · simp [sync_change, hns, h1, h2, h3, h4, h5, h6, known_op]
              · have hko : known_op e.operationType = false := by
                  cases hop : e.operationType with
                  | none => rfl
                  | some s =>
                    rw [hop] at h1 h2 h3 h4 h5 h6
                    simp only [Option.some.injEq] at h1 h2 h3 h4 h5 h6
                    push_neg at h2
                    simp [known_op, h1, h2.1, h2.2, h3, h4, h5, h6]
                simp [sync_change, hns, h1, h2, h3, h4, h5, h6, hko]

/-- C3 witness: an insert with fullDocument whose target replace_one
raises OperationFailure records exactly one error and returns true. -/
theorem C3_witness :
    (e3ex.operationType = some "insert" ∨ e3ex.operationType = some "update" ∨
      e3ex.operationType = some "replace" ∨ e3ex.operationType = some "delete") ∧
    (sync_change e3ex Outcome.opFailure).calls ≠ [] ∧
    ((sync_change e3ex Outcome.opFailure).recorded = ["error"] ∧
      (sync_change e3ex Outcome.opFailure).ret = true) := by
  have hc : (sync_change e3ex Outcome.opFailure).calls ≠ [] := by
    rw [show sync_change e3ex Outcome.opFailure =
      ⟨true, ["error"], [TargetCall.replaceOne "d" "c" (V.vstr "A") [("v", V.vint 1)]]⟩ from rfl]
    simp
  exact ⟨Or.inl rfl, hc,
    (C3_sync_change_spec e3ex Outcome.opFailure).2.2.2.2 (Or.inl rfl) hc rfl⟩

/-- C5 counterexample: the claim asserts _save fsyncs the file handle
where the platform supports it, but no run of _save ever issues an
fsync: the trace of a successful save (and of both failing variants)
contains no fsync operation. -/
theorem C5_counterexample :
    FsOp.fsyncTemp ∉ (save_fs ⟨false, some "old", none⟩ "state" SaveFail.noFail).2.2 ∧
    FsOp.fsyncTemp ∉ (save_fs ⟨false, some "old", none⟩ "state" (SaveFail.atWrite "st")).2.2 ∧
    FsOp.fsyncTemp ∉ (save_fs ⟨false, some "old", none⟩ "state" SaveFail.atRename).2.2 := by
  decide

/-- C5 amended: _save creates the parent directory with intermediates,
creates a uniquely-named temp file in that parent directory, writes
the full serialised state to it and renames it onto the final path —
with no fsync anywhere; on any failure the temp file is deleted, the
exception propagates, no rename happens, and the previously-persisted
final file content is unchanged (hence still parseable, never
truncated). -/
theorem C5_save_atomic (fs : FsState) (content : String) (f : SaveFail) :
    FsOp.mkdirParents ∈ (save_fs fs content f).2.2 ∧
    FsOp.mkstempInParent ∈ (save_fs fs content f).2.2 ∧
    (save_fs fs content f).1.dirExists = true ∧
    (save_fs fs content f).1.tempFile = none ∧
    FsOp.fsyncTemp ∉ (save_fs fs content f).2.2 ∧
    (f = SaveFail.noFail →
      (save_fs fs content f).2.1 = false ∧
      (save_fs fs content f).1.finalFile = some content ∧
      (save_fs fs content f).2.2 =
        [FsOp.mkdirParents, FsOp.mkstempInParent, FsOp.writeTemp content,
         FsOp.renameTempToFinal]) ∧
    (f ≠ SaveFail.noFail →
      (save_fs fs content f).2.1 = true ∧
      (save_fs fs content f).1.finalFile = fs.finalFile ∧
      FsOp.renameTempToFinal ∉ (save_fs fs content f).2.2 ∧
      FsOp.unlinkTemp ∈ (save_fs fs content f).2.2) := by
  cases f <;> simp [save_fs]

/-- C5 witness: a write failure while the old file holds old content:
the exception propagates and the final file content is unchanged. -/
theorem C5_witness :
    (SaveFail.atWrite "pa" ≠ SaveFail.noFail) ∧
    ((save_fs ⟨false, some "old", none⟩ "new" (SaveFail.atWrite "pa")).2.1 = true ∧
     (save_fs ⟨false, some "old", none⟩ "new" (SaveFail.atWrite "pa")).1.finalFile =
       (⟨false, some "old", none⟩ : FsState).finalFile ∧
     FsOp.renameTempToFinal ∉
       (save_fs ⟨false, some "old", none⟩ "new" (SaveFail.atWrite "pa")).2.2 ∧
     FsOp.unlinkTemp ∈ (save_fs ⟨false, some "old", none⟩ "new" (SaveFail.atWrite "pa")).2.2) :=
  ⟨by decide,
   (C5_save_atomic ⟨false, some "old", none⟩ "new" (SaveFail.atWrite "pa")).2.2.2.2.2.2
     (by decide)⟩

theorem rot_seg_succ (n k i : Nat) (h : i < n) :
    rot_seg n (k + 1) i = i :: rot_seg n k (i + 1) := by
  unfold rot_seg
  rw [List.range_succ_eq_map]
  rw [List.map_cons, List.map_map]
  rw [Nat.add_zero, Nat.mod_eq_of_lt h]
  have hfun : ((fun j => (i + j) % n) ∘ Nat.succ) = (fun j => (i + 1 + j) % n) := by
    funext j
    show (i + (j + 1)) % n = (i + 1 + j) % n
    congr 1
    omega
  rw [hfun]

theorem rot_seg_shift (n k i : Nat) :
    rot_seg n k ((i + 1) % n) = rot_seg n k (i + 1) := by
  unfold rot_seg
  have hfun : (fun j => ((i + 1) % n + j) % n) = (fun j => (i + 1 + j) % n) := by
    funext j
    rw [Nat.mod_add_mod]
  rw [hfun]

theorem rot_seg_nodup (n k i : Nat) (_hn : 0 < n) (hk : k ≤ n) : (rot_seg n k i).Nodup := by
  unfold rot_seg
  refine List.Nodup.map_on ?_ (List.nodup_range k)
  intro x hx y hy hxy
  rw [List.mem_range] at hx hy
  have hx2 : x < n := by omega
  have hy2 : y < n := by omega
  have hc : x ≡ y [MOD n] := Nat.ModEq.add_left_cancel' i hxy
  have hc2 : x % n = y % n := hc
  rw [Nat.mod_eq_of_lt hx2, Nat.mod_eq_of_lt hy2] at hc2
  exact hc2

theorem try_next_aux_spec {α : Type} (ss : List (Probe α)) (ns : List String) :
    ∀ (fuel i : Nat), i < ss.length →
      (∃ k, k ≤ fuel ∧ (try_next_aux ss ns fuel i).2.2 = rot_seg ss.length k i) ∧
      (∀ j, first_evt ss (rot_seg ss.length fuel i) = some j →
        (try_next_aux ss ns fuel i).1 =
          (some (ns.getD j ""), (ss.getD j Probe.noEvent).evt?) ∧
        (try_next_aux ss ns fuel i).2.1 = (j + 1) % ss.length) ∧
      (first_evt ss (rot_seg ss.length fuel i) = none →
        (try_next_aux ss ns fuel i).1 = (none, none) ∧
        (try_next_aux ss ns fuel i).2.1 = (i + fuel) % ss.length) := by
  intro fuel
  induction fuel with
  | zero =>
    intro i hi
    refine ⟨⟨0, by omega, rfl⟩, ?_, ?_⟩
    · intro j hj
      simp [first_evt, rot_seg] at hj
    · intro _
      exact ⟨rfl, by simp [try_next_aux, Nat.mod_eq_of_lt hi]⟩
  | succ fuel ih =>
    intro i hi
    have hn : 0 < ss.length := by omega
    have hrot : rot_seg ss.length (fuel + 1) i = i :: rot_seg ss.length fuel (i + 1) :=
      rot_seg_succ ss.length fuel i hi
    have hi2 : (i + 1) % ss.length < ss.length := Nat.mod_lt _ hn
    have hunf : try_next_aux ss ns (fuel + 1) i =
        (if (ss.getD i Probe.noEvent).isEvt then
          ((some (ns.getD i ""), (ss.getD i Probe.noEvent).evt?), (i + 1) % ss.length, [i])
        else
          ((try_next_aux ss ns fuel ((i + 1) % ss.length)).1,
           (try_next_aux ss ns fuel ((i + 1) % ss.length)).2.1,
           i :: (try_next_aux ss ns fuel ((i + 1) % ss.length)).2.2)) := rfl
    by_cases hev : (ss.getD i Probe.noEvent).isEvt = true
    · have haux : try_next_aux ss ns (fuel + 1) i =
          ((some (ns.getD i ""), (ss.getD i Probe.noEvent).evt?),
            (i + 1) % ss.length, [i]) := by
        rw [hunf, if_pos hev]
      have hfe : first_evt ss (rot_seg ss.length (fuel + 1) i) = some i := by
        rw [hrot]
        show List.find? (fun j => (ss.getD j Probe.noEvent).isEvt)
          (i :: rot_seg ss.length fuel (i + 1)) = some i
        exact List.find?_cons_of_pos _
          (show ((fun j => (ss.getD j Probe.noEvent).isEvt) i = true) from hev)
      refine ⟨⟨1, by omega, ?_⟩, ?_, ?_⟩
      · rw [haux]
        simp [rot_seg, List.range_succ, Nat.mod_eq_of_lt hi]
      · intro j hj
        rw [hfe] at hj
        cases hj
        rw [haux]
        exact ⟨rfl, rfl⟩
      · intro hj
        rw [hfe] at hj
        cases hj
    · have haux : try_next_aux ss ns (fuel + 1) i =
          ((try_next_aux ss ns fuel ((i + 1) % ss.length)).1,
           (try_next_aux ss ns fuel ((i + 1) % ss.length)).2.1,
           i :: (try_next_aux ss ns fuel ((i + 1) % ss.length)).2.2) := by
        rw [hunf, if_neg hev]
      have hfe : first_evt ss (rot_seg ss.length (fuel + 1) i) =
          first_evt ss (rot_seg ss.length fuel ((i + 1) % ss.length)) := by
        rw [hrot, rot_seg_shift]
        show List.find? (fun j => (ss.getD j Probe.noEvent).isEvt)
          (i :: rot_seg ss.length fuel (i + 1)) =
          List.find? (fun j => (ss.getD j Probe.noEvent).isEvt) (rot_seg ss.length fuel (i + 1))
        exact List.find?_cons_of_neg _ hev
      obtain ⟨hex, hsome, hnone⟩ := ih ((i + 1) % ss.length) hi2
      refine ⟨?_, ?_, ?_⟩
      · obtain ⟨k, hk, htr⟩ := hex
        refine ⟨k + 1, by omega, ?_⟩
        rw [haux]
        show i :: (try_next_aux ss ns fuel ((i + 1) % ss.length)).2.2 = _
        rw [htr, rot_seg_shift, rot_seg_succ ss.length k i hi]
      · intro j hj
        rw [hfe] at hj
        obtain ⟨ha, hb⟩ := hsome j hj
        rw [haux]
        exact ⟨ha, hb⟩
      · intro hj
        rw [hfe] at hj
        obtain ⟨ha, hb⟩ := hnone hj
        rw [haux]
        refine ⟨ha, ?_⟩
        show (try_next_aux ss ns fuel ((i + 1) % ss.length)).2.1 = _
        rw [hb, Nat.mod_add_mod]
        congr 1
        omega

/-- C7: try_next probes each cursor at most once (the probe trace is a
duplicate-free initial segment of the round-robin order starting at
the current index); the first probed cursor with an event determines
the returned pair and the new index is just past it; when no cursor
yields an event the call returns (None, None) after one full sweep and
the index is back where it started; a cursor that raises counts as
yielding no event and does not abort the sweep. -/
theorem C7_try_next_spec {α : Type} (ss : List (Probe α)) (ns : List String) (i : Nat)
    (h : i < ss.length) :
    (∃ k, k ≤ ss.length ∧
      (try_next (⟨ss, ns, i⟩ : MCS α)).2.2 = rot_seg ss.length k i) ∧
    (try_next (⟨ss, ns, i⟩ : MCS α)).2.2.Nodup ∧
    (∀ j, first_evt ss (rot_seg ss.length ss.length i) = some j →
      (try_next (⟨ss, ns, i⟩ : MCS α)).1 =
        (some (ns.getD j ""), (ss.getD j Probe.noEvent).evt?) ∧
      (try_next (⟨ss, ns, i⟩ : MCS α)).2.1 = (j + 1) % ss.length) ∧
    (first_evt ss (rot_seg ss.length ss.length i) = none →
      (try_next (⟨ss, ns, i⟩ : MCS α)).1 = (none, none) ∧
      (try_next (⟨ss, ns, i⟩ : MCS α)).2.1 = i) := by
  have hn : 0 < ss.length := by omega
  have hne : ss.isEmpty = false := by
    cases ss with
    | nil => simp at hn
    | cons a l => rfl
  have htn : try_next (⟨ss, ns, i⟩ : MCS α) = try_next_aux ss ns ss.length i := by
    simp [try_next, hne]
  obtain ⟨hex, hsome, hnone⟩ := try_next_aux_spec ss ns ss.length i h
  rw [htn]
  refine ⟨hex, ?_, hsome, ?_⟩
  · obtain ⟨k, hk, htr⟩ := hex
    rw [htr]
    exact rot_seg_nodup ss.length k i hn hk
  · intro hj
    obtain ⟨ha, hb⟩ := hnone hj
    refine ⟨ha, ?_⟩
    rw [hb, Nat.add_mod_right, Nat.mod_eq_of_lt h]

/-- C7 witness: three cursors (silent, event 42, raising), index 2:
the sweep wraps, skips the raising cursor and the silent one, returns
the event of cursor 1 tagged with its name and advances past it. -/
theorem C7_witness :
    2 < ssEx.length ∧
    first_evt ssEx (rot_seg ssEx.length ssEx.length 2) = some 1 ∧
    ((try_next (⟨ssEx, ["a", "b", "c"], 2⟩ : MCS Nat)).1 = (some "b", some 42) ∧
     (try_next (⟨ssEx, ["a", "b", "c"], 2⟩ : MCS Nat)).2.1 = (1 + 1) % ssEx.length) := by
  refine ⟨by decide, rfl, ?_⟩
  have hout := (C7_try_next_spec ssEx ["a", "b", "c"] 2 (by decide)).2.2.1 1 rfl
  exact ⟨hout.1, hout.2⟩

/-- C8 counterexample: a stored resume token that is non-null but
falsy (the empty dict) is not injected: the built options carry no
resume_after key, contradicting the claim that every non-null token is
added. -/
theorem C8_counterexample :
    get_resume_token st8 "a.x" = V.vdict [] ∧
    nonNull (V.vdict []) = true ∧
    dget (build_coll_options [("batch_size", V.vint 100)] st8 "a.x") "resume_after" = none :=
  ⟨rfl, rfl, rfl⟩

/-- C8 amended: the per-collection options are a fresh copy of
base_options (which is therefore never mutated); when the stored
resume token is truthy it is added under the single key resume_after
and every other key keeps its base_options value; when it is falsy
(null, or falsy like an empty dict) the options equal base_options
unchanged. -/
theorem C8_build_options_spec (base : List (String × V)) (st : SyncSt) (target : String) :
    (truthy (get_resume_token st target) = true →
      dget (build_coll_options base st target) "resume_after" =
        some (get_resume_token st target) ∧
      ∀ k2, k2 ≠ "resume_after" →
        dget (build_coll_options base st target) k2 = dget base k2) ∧
    (truthy (get_resume_token st target) = false →
      build_coll_options base st target = base) := by
  constructor
  · intro ht
    have hb : build_coll_options base st target =
        dset base "resume_after" (get_resume_token st target) := by
      simp [build_coll_options, ht]
    rw [hb]
    exact ⟨dget_dset_self _ _ _, fun k2 hk2 => dget_dset_ne _ _ _ _ hk2⟩
  · intro ht
    simp [build_coll_options, ht]

/-- C8 witness: a truthy stored token is injected under resume_after
while batch_size keeps its base value. -/
theorem C8_witness :
    truthy (get_resume_token st8b "a.x") = true ∧
    dget (build_coll_options [("batch_size", V.vint 100)] st8b "a.x") "resume_after" =
      some (get_resume_token st8b "a.x") ∧
    dget (build_coll_options [("batch_size", V.vint 100)] st8b "a.x") "batch_size" =
      dget [("batch_size", V.vint 100)] "batch_size" := by
  refine ⟨rfl, ?_, ?_⟩
  · exact ((C8_build_options_spec [("batch_size", V.vint 100)] st8b "a.x").1 rfl).1
  · exact ((C8_build_options_spec [("batch_size", V.vint 100)] st8b "a.x").1 rfl).2
      "batch_size" (by decide)

/-- C9: over any call sequence, the single-stream wrapper and the
multiplexer over the same one cursor return the same tagged events,
raising probes included (both map them to (None, None)); and closing
is identical too (one close of the cursor, errors swallowed). -/
theorem C9_single_equiv_multi {α : Type} (name : String) (ps : List (Probe α)) (c : Cursor) :
    run_multi name 0 ps = run_single name ps ∧
    multi_close [c] = [single_close c] := by
  constructor
  · induction ps with
    | nil => rfl
    | cons p ps ih =>
      cases p <;>
        simp [run_multi, run_single, try_next, try_next_aux, single_try_next,
          Probe.isEvt, Probe.evt?, ih]
  · rfl

end SyncSvc
